import Mathlib

/-!
Shallow embedding of the websocket examples in `python-learning/web_sockets`:
the chat server (`03_chat_server.py`), the counter server
(`05_counter_server.py`) and the two interactive clients
(`04_chat_client.py`, `06_counter_client.py`).

Connections are identified by their object identity, modelled as natural
numbers.  The servers keep registered connections in a plain Python list
(`connected_clients`); Python `list.remove` removes the first occurrence of
its argument and raises `ValueError` when the argument is absent, which we
model with `Option` (`none` = `ValueError`).  A Python `for` loop over a
list reads the element at the iterator's current index from the *live* list
and then advances the index by one, so removing the current element shifts
the successor into the slot the iterator has already passed.
-/

/-- Connection references (Python object identity of a websocket). -/
abbrev Conn := Nat

/-- Python `list.remove`: drop the first occurrence of `a`;
`none` models the `ValueError` raised when `a` is absent. -/
def listRemove : List Conn → Conn → Option (List Conn)
  | [], _ => none
  | x :: xs, a => if x = a then some xs else (listRemove xs a).map (fun t => x :: t)

/-- The handlers' `finally` cleanup:
`if websocket in connected_clients: connected_clients.remove(websocket)`. -/
def endOfSessionCleanup (lst : List Conn) (c : Conn) : List Conn :=
  if c ∈ lst then (listRemove lst c).getD lst else lst

/-- The `except:` branch inside a broadcast loop:
the unguarded `connected_clients.remove(client)`. -/
def inBroadcastDeregister (lst : List Conn) (c : Conn) : Option (List Conn) :=
  listRemove lst c

/-- One broadcast loop, as both servers write it:
`for client in connected_clients:` iterates the live list by index;
a client equal to `exclude` is skipped (chat's `if client != websocket`);
a failing `send` is swallowed and answered by the unguarded
`connected_clients.remove(client)`.  `fuel` bounds the iteration count
(the index grows by one each step and the list never grows, so
`lst.length` steps of fuel always suffice).  Returns the final list and
the sends performed, in order. -/
def broadcastAux (failing : Conn → Bool) (exclude : Option Conn) (msg : String) :
    Nat → Nat → List Conn → List Conn × List (Conn × String)
  | 0, _, lst => (lst, [])
  | fuel + 1, i, lst =>
    if h : i < lst.length then
      let c := lst.get ⟨i, h⟩
      if some c = exclude then
        broadcastAux failing exclude msg fuel (i + 1) lst
      else if failing c then
        broadcastAux failing exclude msg fuel (i + 1) ((inBroadcastDeregister lst c).getD lst)
      else
        let r := broadcastAux failing exclude msg fuel (i + 1) lst
        (r.1, (c, msg) :: r.2)
    else (lst, [])

/-- A full broadcast: the `for` loop started at index 0 over the live list. -/
def broadcast (failing : Conn → Bool) (exclude : Option Conn) (msg : String)
    (lst : List Conn) : List Conn × List (Conn × String) :=
  broadcastAux failing exclude msg lst.length 0 lst

/-- The relayed chat line: `f"Client {client_id}: {message}"`. -/
def chatRelayMsg (clientId : Nat) (msg : String) : String :=
  "Client " ++ toString clientId ++ ": " ++ msg

/-- Processing one inbound chat message from `sender` (display id
`senderId`): relay to every other registered client, removing clients
whose send fails.  Body of the `async for` loop of `chat_handler`. -/
def chatStep (failing : Conn → Bool) (clients : List Conn) (sender : Conn)
    (senderId : Nat) (msg : String) : List Conn × List (Conn × String) :=
  broadcast failing (some sender) (chatRelayMsg senderId msg) clients

/-- Global state of the counter server: `connected_clients` and `counter`. -/
structure CounterState where
  clients : List Conn
  counter : Nat
  deriving Repr, DecidableEq

/-- Python `str.lower()` (the inputs here are ASCII, where it agrees with
per-character `Char.toLower`). -/
def pyLower (s : String) : String := String.mk (s.data.map Char.toLower)

/-- Body of `counter_handler`'s `async for` loop: `"increment"`
(case-insensitive) bumps the counter then broadcasts
`f"Counter: {counter}"` to all clients; `"reset"` zeroes it then
broadcasts `"Counter reset to 0"`; anything else matches no branch. -/
def counterStep (failing : Conn → Bool) (s : CounterState) (msg : String) :
    CounterState × List (Conn × String) :=
  if pyLower msg = "increment" then
    let c := s.counter + 1
    let r := broadcast failing none ("Counter: " ++ toString c) s.clients
    (⟨r.1, c⟩, r.2)
  else if pyLower msg = "reset" then
    let r := broadcast failing none "Counter reset to 0" s.clients
    (⟨r.1, 0⟩, r.2)
  else (s, [])

/-- The counter handler's read loop over a session's inbound messages. -/
def processMsgs (failing : Conn → Bool) : List String → CounterState →
    CounterState × List (Conn × String)
  | [], s => (s, [])
  | m :: ms, s =>
    let r := counterStep failing s m
    let r2 := processMsgs failing ms r.1
    (r2.1, r.2 ++ r2.2)

/-- One whole `counter_handler` session for connection `ws` arriving at
state `s`: append `ws` to `connected_clients`, send
`f"Current counter: {counter}"` to `ws` alone, run the read loop on the
session's inbound messages, then run the `finally` cleanup. -/
def counterSession (failing : Conn → Bool) (s : CounterState) (ws : Conn)
    (msgs : List String) : CounterState × List (Conn × String) :=
  let clients1 := s.clients ++ [ws]
  let r := processMsgs failing msgs ⟨clients1, s.counter⟩
  (⟨endOfSessionCleanup r.1.clients ws, r.1.counter⟩,
    (ws, "Current counter: " ++ toString s.counter) :: r.2)

/-- Chat client quit test: `message.lower() in ['quit', 'exit', 'bye']`. -/
def chatQuit (input : String) : Bool :=
  pyLower input == "quit" || pyLower input == "exit" || pyLower input == "bye"

/-- Counter client quit test: `command.lower() in ['quit', 'exit']`. -/
def counterQuit (input : String) : Bool :=
  pyLower input == "quit" || pyLower input == "exit"

/-- The clients' send loop over the user's input lines: stop without
transmitting at the first line passing `quit`, otherwise transmit the
line and continue.  Returns the transmitted lines, in order. -/
def sendLoop (quit : String → Bool) : List String → List String
  | [] => []
  | m :: ms => if quit m then [] else m :: sendLoop quit ms

/-- Registry operations a server process performs over its lifetime. -/
inductive RegOp where
  | reg : Conn → RegOp
  | dereg : Conn → RegOp
  deriving Repr, DecidableEq

/-- Run a sequence of registry operations on `connected_clients`.
Registration is `connected_clients.append(websocket)` followed by
`client_id = len(connected_clients)`; deregistration is the guarded
cleanup.  Returns the final list and the display ids assigned, in order. -/
def runOps : List RegOp → List Conn → List Conn × List Nat
  | [], lst => (lst, [])
  | RegOp.reg c :: ops, lst =>
    let lst1 := lst ++ [c]
    let r := runOps ops lst1
    (r.1, lst1.length :: r.2)
  | RegOp.dereg c :: ops, lst =>
    runOps ops (endOfSessionCleanup lst c)

/-- Modelled from the spec: the registry abstraction's
`snapshot()`-based broadcast, which is *not* what the code does.  The
spec's §on broadcast says the fan-out iterates "a consistent,
point-in-time copy of current members", skipping the excluded sender,
sending to each member and deregistering a member whose send fails from
the live registry.  `snap` is the point-in-time copy, `live` the live
registry. -/
def specSnapshotBroadcast (failing : Conn → Bool) (exclude : Option Conn)
    (msg : String) : List Conn → List Conn → List Conn × List (Conn × String)
  | live, [] => (live, [])
  | live, c :: rest =>
    if some c = exclude then
      specSnapshotBroadcast failing exclude msg live rest
    else if failing c then
      specSnapshotBroadcast failing exclude msg (endOfSessionCleanup live c) rest
    else
      let r := specSnapshotBroadcast failing exclude msg live rest
      (r.1, (c, msg) :: r.2)


theorem broadcastAux_stop (failing : Conn → Bool) (exclude : Option Conn) (msg : String)
    (fuel i : Nat) (lst : List Conn) (h : ¬ i < lst.length) :
    broadcastAux failing exclude msg (fuel + 1) i lst = (lst, []) := by
  simp [broadcastAux, h]

theorem broadcastAux_skip (failing : Conn → Bool) (exclude : Option Conn) (msg : String)
    (fuel i : Nat) (lst : List Conn) (h : i < lst.length) (he : some lst[i] = exclude) :
    broadcastAux failing exclude msg (fuel + 1) i lst =
      broadcastAux failing exclude msg fuel (i + 1) lst := by
  simp [broadcastAux, h, he]

theorem broadcastAux_fail (failing : Conn → Bool) (exclude : Option Conn) (msg : String)
    (fuel i : Nat) (lst : List Conn) (h : i < lst.length) (he : ¬ some lst[i] = exclude)
    (hf : failing lst[i] = true) :
    broadcastAux failing exclude msg (fuel + 1) i lst =
      broadcastAux failing exclude msg fuel (i + 1)
        ((inBroadcastDeregister lst lst[i]).getD lst) := by
  simp [broadcastAux, h, he, hf]

theorem broadcastAux_send (failing : Conn → Bool) (exclude : Option Conn) (msg : String)
    (fuel i : Nat) (lst : List Conn) (h : i < lst.length) (he : ¬ some lst[i] = exclude)
    (hf : failing lst[i] = false) :
    broadcastAux failing exclude msg (fuel + 1) i lst =
      ((broadcastAux failing exclude msg fuel (i + 1) lst).1,
        (lst[i], msg) :: (broadcastAux failing exclude msg fuel (i + 1) lst).2) := by
  simp [broadcastAux, h, he, hf]

theorem broadcastAux_noFail (failing : Conn → Bool) (exclude : Option Conn) (msg : String)
    (fuel : Nat) : ∀ (i : Nat) (lst : List Conn), (∀ c ∈ lst, failing c = false) →
    lst.length ≤ i + fuel →
    broadcastAux failing exclude msg fuel i lst =
      (lst, ((lst.drop i).filter (fun c => decide (some c ≠ exclude))).map
        (fun c => (c, msg))) := by
  induction fuel with
  | zero =>
    intro i lst hnf hle
    rw [List.drop_eq_nil_of_le (by omega)]
    simp [broadcastAux]
  | succ fuel ih =>
    intro i lst hnf hle
    by_cases h : i < lst.length
    · have hfc : failing lst[i] = false := hnf _ (lst.getElem_mem h)
      have hdrop : lst.drop i = lst[i] :: lst.drop (i + 1) := List.drop_eq_getElem_cons h
      by_cases he : some lst[i] = exclude
      · rw [broadcastAux_skip failing exclude msg fuel i lst h he,
          ih (i + 1) lst hnf (by omega), hdrop, List.filter_cons, if_neg (by simp [he])]
      · rw [broadcastAux_send failing exclude msg fuel i lst h he hfc,
          ih (i + 1) lst hnf (by omega), hdrop, List.filter_cons, if_pos (by simp [he]),
          List.map_cons]
    · rw [broadcastAux_stop failing exclude msg fuel i lst h,
        List.drop_eq_nil_of_le (by omega)]
      simp

theorem broadcast_noFail (failing : Conn → Bool) (exclude : Option Conn) (msg : String)
    (lst : List Conn) (hnf : ∀ c ∈ lst, failing c = false) :
    broadcast failing exclude msg lst =
      (lst, (lst.filter (fun c => decide (some c ≠ exclude))).map (fun c => (c, msg))) := by
  have h := broadcastAux_noFail failing exclude msg lst.length 0 lst hnf (by omega)
  rw [broadcast, h, List.drop_zero]

theorem broadcastAux_not_excluded (failing : Conn → Bool) (s : Conn) (msg : String)
    (fuel : Nat) : ∀ (i : Nat) (lst : List Conn) (m : String),
    (s, m) ∉ (broadcastAux failing (some s) msg fuel i lst).2 := by
  induction fuel with
  | zero => intro i lst m; simp [broadcastAux]
  | succ fuel ih =>
    intro i lst m
    by_cases h : i < lst.length
    · by_cases he : some lst[i] = some s
      · rw [broadcastAux_skip failing (some s) msg fuel i lst h he]
        exact ih (i + 1) lst m
      · by_cases hf : failing lst[i]
        · rw [broadcastAux_fail failing (some s) msg fuel i lst h he hf]
          exact ih (i + 1) _ m
        · rw [broadcastAux_send failing (some s) msg fuel i lst h he
            (Bool.not_eq_true _ ▸ hf)]
          intro hmem
          rcases List.mem_cons.mp hmem with heq | htail
          · exact he (congrArg some (congrArg Prod.fst heq).symm)
          · exact ih (i + 1) lst m htail
    · rw [broadcastAux_stop failing (some s) msg fuel i lst h]
      simp

theorem specSnapshotBroadcast_noFail (failing : Conn → Bool) (exclude : Option Conn)
    (msg : String) : ∀ (snap live : List Conn), (∀ c ∈ snap, failing c = false) →
    specSnapshotBroadcast failing exclude msg live snap =
      (live, (snap.filter (fun c => decide (some c ≠ exclude))).map (fun c => (c, msg))) := by
  intro snap
  induction snap with
  | nil => intro live hnf; simp [specSnapshotBroadcast]
  | cons c rest ih =>
    intro live hnf
    have hfc : failing c = false := hnf c (List.mem_cons_self c rest)
    have hrest : ∀ x ∈ rest, failing x = false := fun x hx => hnf x (List.mem_cons_of_mem c hx)
    by_cases he : some c = exclude
    · rw [show specSnapshotBroadcast failing exclude msg live (c :: rest) =
          specSnapshotBroadcast failing exclude msg live rest by
            simp [specSnapshotBroadcast, he],
        ih live hrest, List.filter_cons, if_neg (by simp [he])]
    · rw [show specSnapshotBroadcast failing exclude msg live (c :: rest) =
          ((specSnapshotBroadcast failing exclude msg live rest).1,
            (c, msg) :: (specSnapshotBroadcast failing exclude msg live rest).2) by
            simp [specSnapshotBroadcast, he, hfc],
        ih live hrest, List.filter_cons, if_pos (by simp [he]), List.map_cons]

theorem runOps_regs (cs lst : List Conn) :
    runOps (cs.map RegOp.reg) lst = (lst ++ cs, List.range' (lst.length + 1) cs.length) := by
  induction cs generalizing lst with
  | nil => simp [runOps]
  | cons c cs ih =>
    simp only [List.map_cons, runOps, ih (lst ++ [c])]
    simp [List.range'_succ, Nat.add_assoc, Nat.add_comm 1]

theorem listRemove_eq_none {lst : List Conn} {c : Conn} (hc : c ∉ lst) :
    listRemove lst c = none := by
  induction lst with
  | nil => rfl
  | cons x xs ih =>
    simp only [List.mem_cons, not_or] at hc
    have hx : ¬ x = c := fun h => hc.1 h.symm
    simp [listRemove, hx, ih hc.2]

/-! ## Claim theorems -/

/-- C1 (code bug): chat registry `[1, 2, 3, 4]`, sender is client 1, and the
send to client 2 fails.  The claim says every other non-failing target
(clients 3 and 4) still receives the relay.  The code removes client 2 from
the live list mid-iteration, the iterator skips the shifted client 3, and
only client 4 receives `"Client 1: hi"` — client 3 was registered and
non-failing yet gets nothing. -/
theorem chat_broadcast_drops_nonfailing_target :
    chatStep (fun c => c == 2) [1, 2, 3, 4] 1 1 "hi" =
      ([1, 3, 4], [(4, "Client 1: hi")]) ∧
    (3 : Conn) ∈ [1, 2, 3, 4] ∧ (fun c : Conn => c == 2) 3 = false :=
  ⟨by decide, by decide, by decide⟩

/-- C2: when the counter server receives `"increment"` in any letter case
and no send fails, the counter becomes `counter + 1`, every registered
connection — the sender `c` included — is sent `"Counter: <new value>"`,
and the registry is unchanged. -/
theorem counter_increment_broadcasts_to_all (failing : Conn → Bool)
    (s : CounterState) (msg : String) (c : Conn)
    (hmsg : pyLower msg = "increment")
    (hnf : ∀ x ∈ s.clients, failing x = false) (hc : c ∈ s.clients) :
    (counterStep failing s msg).1.counter = s.counter + 1 ∧
    (counterStep failing s msg).1.clients = s.clients ∧
    (counterStep failing s msg).2 =
      s.clients.map (fun x => (x, "Counter: " ++ toString (s.counter + 1))) ∧
    (c, "Counter: " ++ toString (s.counter + 1)) ∈ (counterStep failing s msg).2 := by
  have hb := broadcast_noFail failing none ("Counter: " ++ toString (s.counter + 1))
    s.clients hnf
  have hstep : counterStep failing s msg =
      (⟨s.clients, s.counter + 1⟩,
        s.clients.map (fun x => (x, "Counter: " ++ toString (s.counter + 1)))) := by
    simp [counterStep, hmsg, hb]
  refine ⟨by rw [hstep], by rw [hstep], by rw [hstep], ?_⟩
  rw [hstep]
  exact List.mem_map_of_mem _ hc

/-- C2 witness: registry `[5, 7]`, counter 3, message `"InCrEmEnT"`. -/
theorem counter_increment_broadcasts_to_all_witness :
    (counterStep (fun _ => false) ⟨[5, 7], 3⟩ "InCrEmEnT").1.counter = 3 + 1 ∧
    (counterStep (fun _ => false) ⟨[5, 7], 3⟩ "InCrEmEnT").1.clients = [5, 7] ∧
    (counterStep (fun _ => false) ⟨[5, 7], 3⟩ "InCrEmEnT").2 =
      [5, 7].map (fun x => (x, "Counter: " ++ toString (3 + 1))) ∧
    ((5 : Conn), "Counter: " ++ toString (3 + 1)) ∈
      (counterStep (fun _ => false) ⟨[5, 7], 3⟩ "InCrEmEnT").2 :=
  counter_increment_broadcasts_to_all (fun _ => false) ⟨[5, 7], 3⟩ "InCrEmEnT" 5
    (by decide) (fun x _ => rfl) (by decide)

/-- C3: when no send fails, a chat message from a registered `sender` is
relayed as `"Client <id>: <text>"` to exactly the other registered
connections — all `N - 1` of them — and, for any failure pattern at all,
never back to the sender. -/
theorem chat_relay_to_all_others_never_sender (failing : Conn → Bool)
    (clients : List Conn) (sender : Conn) (senderId : Nat) (msg : String)
    (hN : 2 ≤ clients.length) (hnd : clients.Nodup) (hs : sender ∈ clients)
    (hnf : ∀ x ∈ clients, failing x = false) :
    (chatStep failing clients sender senderId msg).2 =
      (clients.filter (fun x => x != sender)).map
        (fun x => (x, chatRelayMsg senderId msg)) ∧
    (∀ x ∈ clients, x ≠ sender →
      (x, chatRelayMsg senderId msg) ∈ (chatStep failing clients sender senderId msg).2) ∧
    (chatStep failing clients sender senderId msg).2.length = clients.length - 1 ∧
    (∀ (failing2 : Conn → Bool) (m : String),
      (sender, m) ∉ (chatStep failing2 clients sender senderId msg).2) := by
  have hb := broadcast_noFail failing (some sender) (chatRelayMsg senderId msg) clients hnf
  have hfe : clients.filter (fun x => decide (some x ≠ some sender)) =
      clients.filter (fun x => x != sender) := by
    apply List.filter_congr
    intro x _
    by_cases hxs : x = sender <;> simp [hxs]
  rw [hfe] at hb
  have hsends : (chatStep failing clients sender senderId msg).2 =
      (clients.filter (fun x => x != sender)).map
        (fun x => (x, chatRelayMsg senderId msg)) := by
    simp only [chatStep, hb]
  refine ⟨hsends, ?_, ?_, ?_⟩
  · intro x hx hne
    rw [hsends]
    exact List.mem_map_of_mem _ (List.mem_filter.mpr ⟨hx, by simp [hne]⟩)
  · rw [hsends, List.length_map, ← List.Nodup.erase_eq_filter hnd sender,
      List.length_erase_of_mem hs]
  · intro failing2 m
    simp only [chatStep, broadcast]
    exact broadcastAux_not_excluded failing2 sender (chatRelayMsg senderId msg)
      clients.length 0 clients m

/-- C3 witness: clients `[1, 2, 3]`, sender 2 with display id 2,
message `"yo"`, no failures. -/
theorem chat_relay_to_all_others_never_sender_witness :
    (chatStep (fun _ => false) [1, 2, 3] 2 2 "yo").2 =
      ([1, 2, 3].filter (fun x => x != 2)).map (fun x => (x, chatRelayMsg 2 "yo")) :=
  (chat_relay_to_all_others_never_sender (fun _ => false) [1, 2, 3] 2 2 "yo"
    (by decide) (by decide) (by decide) (fun x _ => rfl)).1

/-- C4: when the counter server receives `"reset"` in any letter case and no
send fails, the counter becomes exactly 0 and every registered connection is
sent `"Counter reset to 0"`; the registry is unchanged. -/
theorem counter_reset_broadcasts_to_all (failing : Conn → Bool)
    (s : CounterState) (msg : String) (hmsg : pyLower msg = "reset")
    (hnf : ∀ x ∈ s.clients, failing x = false) :
    (counterStep failing s msg).1.counter = 0 ∧
    (counterStep failing s msg).1.clients = s.clients ∧
    (counterStep failing s msg).2 = s.clients.map (fun x => (x, "Counter reset to 0")) := by
  have hb := broadcast_noFail failing none "Counter reset to 0" s.clients hnf
  have hne : pyLower msg ≠ "increment" := by rw [hmsg]; decide
  have hstep : counterStep failing s msg =
      (⟨s.clients, 0⟩, s.clients.map (fun x => (x, "Counter reset to 0"))) := by
    simp [counterStep, hmsg, hne, hb]
  exact ⟨by rw [hstep], by rw [hstep], by rw [hstep]⟩

/-- C4 witness: registry `[4, 9]`, counter 7, message `"ReSeT"`. -/
theorem counter_reset_broadcasts_to_all_witness :
    (counterStep (fun _ => false) ⟨[4, 9], 7⟩ "ReSeT").1.counter = 0 ∧
    (counterStep (fun _ => false) ⟨[4, 9], 7⟩ "ReSeT").1.clients = [4, 9] ∧
    (counterStep (fun _ => false) ⟨[4, 9], 7⟩ "ReSeT").2 =
      [4, 9].map (fun x => (x, "Counter reset to 0")) :=
  counter_reset_broadcasts_to_all (fun _ => false) ⟨[4, 9], 7⟩ "ReSeT"
    (by decide) (fun x _ => rfl)

/-- C5 counterexample: deregistering the absent connection 3 from registry
`[1, 2]` raises `ValueError` (modelled `none`) on the in-broadcast
send-failure path, while the guarded end-of-session path is a no-op — so
"no-op and no error on every path" is false. -/
theorem in_broadcast_deregister_absent_errors :
    inBroadcastDeregister [1, 2] 3 = none ∧ endOfSessionCleanup [1, 2] 3 = [1, 2] :=
  ⟨by decide, by decide⟩

/-- C5 amended: deregistering an absent connection is a guarded no-op on the
end-of-session cleanup path, but the in-broadcast send-failure path calls the
unguarded `list.remove`, which raises `ValueError` (modelled `none`) when the
connection is absent. -/
theorem deregister_absent_paths (lst : List Conn) (c : Conn) (hc : c ∉ lst) :
    endOfSessionCleanup lst c = lst ∧ inBroadcastDeregister lst c = none := by
  refine ⟨?_, listRemove_eq_none hc⟩
  simp [endOfSessionCleanup, hc]

/-- C5 witness: registry `[5, 8]`, absent connection 9. -/
theorem deregister_absent_paths_witness :
    endOfSessionCleanup [5, 8] 9 = [5, 8] ∧ inBroadcastDeregister [5, 8] 9 = none :=
  deregister_absent_paths [5, 8] 9 (by decide)

/-- C6 counterexample: registry `[1, 2, 3, 4]`, sender 1 excluded, sends to
client 2 failing.  The code's live-list broadcast delivers only to client 4,
while the snapshot-based broadcast the spec describes delivers to 3 and 4:
the deregister performed mid-broadcast changes which targets are visited, so
the code does not iterate a point-in-time snapshot. -/
theorem live_iteration_differs_from_snapshot :
    broadcast (fun c => c == 2) (some 1) "m" [1, 2, 3, 4] = ([1, 3, 4], [(4, "m")]) ∧
    specSnapshotBroadcast (fun c => c == 2) (some 1) "m" [1, 2, 3, 4] [1, 2, 3, 4] =
      ([1, 3, 4], [(3, "m"), (4, "m")]) :=
  ⟨by decide, by decide⟩

/-- C6 amended: the broadcasts iterate the live mutable list, not a snapshot;
the iteration agrees with the spec's snapshot-based fan-out exactly when no
send fails (no deregistration happens mid-broadcast), and a mid-broadcast
deregistration makes the visited sequence differ (the element shifted into
the removed slot is skipped). -/
theorem broadcast_matches_snapshot_when_no_failure (failing : Conn → Bool)
    (exclude : Option Conn) (msg : String) (lst : List Conn)
    (hnf : ∀ c ∈ lst, failing c = false) :
    broadcast failing exclude msg lst =
      specSnapshotBroadcast failing exclude msg lst lst := by
  rw [broadcast_noFail failing exclude msg lst hnf,
    specSnapshotBroadcast_noFail failing exclude msg lst lst hnf]

/-- C6 witness: no-failure broadcast over `[1, 2, 3]` excluding 1. -/
theorem broadcast_matches_snapshot_when_no_failure_witness :
    broadcast (fun _ => false) (some 1) "m" [1, 2, 3] =
      specSnapshotBroadcast (fun _ => false) (some 1) "m" [1, 2, 3] [1, 2, 3] :=
  broadcast_matches_snapshot_when_no_failure (fun _ => false) (some 1) "m" [1, 2, 3]
    (fun c _ => rfl)

/-- C7: a counter session's very first send is `"Current counter: <value>"`
with the counter value at arrival, addressed to the new connection alone;
every read-loop broadcast send comes after it in the session's send trace. -/
theorem counter_new_connection_greeting_first (failing : Conn → Bool)
    (s : CounterState) (ws : Conn) (msgs : List String) :
    (counterSession failing s ws msgs).2 =
      (ws, "Current counter: " ++ toString s.counter) ::
        (processMsgs failing msgs ⟨s.clients ++ [ws], s.counter⟩).2 ∧
    (counterSession failing s ws msgs).2.head? =
      some (ws, "Current counter: " ++ toString s.counter) :=
  ⟨rfl, rfl⟩

/-- C8 counterexample: `"bye"` is a quit sentinel for the chat client, but
the counter client's sentinel list is only `['quit', 'exit']`, so the counter
client transmits `"bye"` instead of ending its loop. -/
theorem counter_client_transmits_bye :
    sendLoop counterQuit ["bye"] = ["bye"] ∧ chatQuit "bye" = true ∧
      counterQuit "bye" = false :=
  ⟨by decide, by decide, by decide⟩

/-- C8 amended: the chat client's send loop ends voluntarily without
transmitting exactly on inputs whose lowercase form is `"quit"`, `"exit"` or
`"bye"`; the counter client's loop does so exactly on `"quit"` or `"exit"`
(`"bye"` is not among its sentinels); any other input is transmitted and the
loop restarts. -/
theorem send_loop_quit_sentinels (m : String) (ms : List String) :
    (sendLoop chatQuit (m :: ms) = [] ↔
      (pyLower m = "quit" ∨ pyLower m = "exit" ∨ pyLower m = "bye")) ∧
    (sendLoop counterQuit (m :: ms) = [] ↔
      (pyLower m = "quit" ∨ pyLower m = "exit")) ∧
    (chatQuit m = false → sendLoop chatQuit (m :: ms) = m :: sendLoop chatQuit ms) ∧
    (counterQuit m = false →
      sendLoop counterQuit (m :: ms) = m :: sendLoop counterQuit ms) := by
  refine ⟨?_, ?_, ?_, ?_⟩
  · by_cases h : chatQuit m
    · have hd : pyLower m = "quit" ∨ pyLower m = "exit" ∨ pyLower m = "bye" := by
        simpa [chatQuit, or_assoc] using h
      simp [sendLoop, h, hd]
    · have hd := h
      simp only [chatQuit, Bool.or_eq_true, beq_iff_eq, not_or] at hd
      simp [sendLoop, h, hd.1.1, hd.1.2, hd.2]
  · by_cases h : counterQuit m
    · have hd : pyLower m = "quit" ∨ pyLower m = "exit" := by
        simpa [counterQuit] using h
      simp [sendLoop, h, hd]
    · have hd := h
      simp only [counterQuit, Bool.or_eq_true, beq_iff_eq, not_or] at hd
      simp [sendLoop, h, hd.1, hd.2]
  · intro h
    simp [sendLoop, h]
  · intro h
    simp [sendLoop, h]

/-- C8 witness: `"hello"` matches no sentinel, so the chat client transmits
it and the loop continues. -/
theorem send_loop_quit_sentinels_witness :
    sendLoop chatQuit ["hello", "bye"] = "hello" :: sendLoop chatQuit ["bye"] :=
  (send_loop_quit_sentinels "hello" ["bye"]).2.2.1 (by decide)

/-- C9 counterexample: register connection 10 (display id 1), register 20
(id 2), deregister 20, register 30 — the last registration is also assigned
display id 2, so two registrations in one process share an identifier. -/
theorem client_ids_repeat_after_dereg :
    (runOps [RegOp.reg 10, RegOp.reg 20, RegOp.dereg 20, RegOp.reg 30] []).2 =
      [1, 2, 2] ∧
    (runOps [RegOp.reg 10, RegOp.reg 20, RegOp.dereg 20, RegOp.reg 30] []).1 =
      [10, 30] :=
  ⟨by decide, by decide⟩

/-- C9 amended: the display identifier assigned at registration is the
registry length right after the append.  Over any run of registrations with
no intervening deregistration the assigned identifiers are the distinct
consecutive values `len + 1, len + 2, …`; once a deregistration occurs, a
later registration can reuse an identifier.  The registry holds each
reference at most once provided each connection registers at most once
(the append itself does not deduplicate). -/
theorem client_ids_sequential_without_dereg (cs lst : List Conn) :
    (runOps (cs.map RegOp.reg) lst).1 = lst ++ cs ∧
    (runOps (cs.map RegOp.reg) lst).2 = List.range' (lst.length + 1) cs.length ∧
    (runOps (cs.map RegOp.reg) lst).2.Nodup ∧
    ((lst ++ cs).Nodup → (runOps (cs.map RegOp.reg) lst).1.Nodup) := by
  have h := runOps_regs cs lst
  refine ⟨by rw [h], by rw [h], ?_, ?_⟩
  · rw [h]
    exact List.nodup_range' (lst.length + 1) cs.length
  · intro hnd
    rw [h]
    exact hnd

/-- C10: an inbound message that is neither `"increment"` nor `"reset"`
(case-insensitively) matches no branch of the counter handler: the counter
and the registry are unchanged, nothing is sent to anyone, the sender is not
disconnected, and the read loop just moves on to the next message. -/
theorem counter_unknown_command_noop (failing : Conn → Bool) (s : CounterState)
    (m : String) (ms : List String)
    (h1 : pyLower m ≠ "increment") (h2 : pyLower m ≠ "reset") :
    counterStep failing s m = (s, []) ∧
    processMsgs failing (m :: ms) s = processMsgs failing ms s := by
  have hstep : counterStep failing s m = (s, []) := by
    simp [counterStep, h1, h2]
  exact ⟨hstep, by simp [processMsgs, hstep]⟩

/-- C10 witness: message `"hello"` at registry `[1]`, counter 5. -/
theorem counter_unknown_command_noop_witness :
    counterStep (fun _ => false) ⟨[1], 5⟩ "hello" = (⟨[1], 5⟩, []) ∧
    processMsgs (fun _ => false) ["hello"] ⟨[1], 5⟩ =
      processMsgs (fun _ => false) [] ⟨[1], 5⟩ :=
  counter_unknown_command_noop (fun _ => false) ⟨[1], 5⟩ "hello" []
    (by decide) (by decide)
